import Mathlib

/-!
Verification of `hepcrawl/spiders/oup_spider.py` (Oxford University Press
spider of the scoap3-hepcrawl repository) against its specification.

The embedding is shallow: the XML selector layer is represented by the
values each fixed xpath query extracts from one article document, the
local disk by a map from path strings to file contents, and a zip bundle
by its ordered entry list.  Python runtime failures (AttributeError,
TypeError, ValueError, IndexError) are modelled with an `Except` monad,
because `parse_node` manipulates dynamically typed values: the value of
`node.xpath(...).extract()` is a Python list of strings, and the source
calls the string method `lower` on it.  A tiny dynamic-value type `PyVal`
gives these operations their exact Python dispatch behaviour.

All string and path primitives (`os.path.join`, `os.path.splitext`,
`os.path.dirname`, `os.path.basename`, `str.find`, slicing, `split`,
`int`) are translated from CPython posixpath/str semantics, operating on
the character list of the string.
-/

/-- Python runtime errors raised by the embedded code. -/
inductive PyErr where
  | attributeError (attr : String)
  | typeError (msg : String)
  | valueError (msg : String)
  | indexError
  deriving Repr, DecidableEq

/-- The dynamically typed Python values `parse_node` manipulates: `None`,
a string, or a list of strings (the result of `SelectorList.extract()`). -/
inductive PyVal where
  | pyNone
  | pyStr (s : String)
  | pyStrList (xs : List String)
  deriving Repr, DecidableEq

/-- Python attribute lookup plus call of `.lower()`: only `str` has this
method; calling it on a `list` or on `None` raises AttributeError. -/
def PyVal.lower : PyVal → Except PyErr PyVal
  | .pyStr s => .ok (.pyStr s.toLower)
  | .pyNone => .error (.attributeError "lower")
  | .pyStrList _ => .error (.attributeError "lower")

/-- Python subscript `v[i]` for a non-negative index: on a string it yields
the one-character string at that index, on a list the element; out of
range raises IndexError, `None` is not subscriptable. -/
def PyVal.subscript : PyVal → Nat → Except PyErr PyVal
  | .pyStr s, i =>
    match s.toList[i]? with
    | some c => .ok (.pyStr (String.mk [c]))
    | none => .error .indexError
  | .pyStrList xs, i =>
    match xs[i]? with
    | some x => .ok (.pyStr x)
    | none => .error .indexError
  | .pyNone, _ => .error (.typeError "NoneType object is not subscriptable")

/-- Python membership `v in l` for a list `l` of strings: true exactly when
`v` is a string equal to one of the elements (a list or `None` never equals
a string). -/
def PyVal.inStrList : PyVal → List String → Bool
  | .pyStr s, l => l.contains s
  | .pyNone, _ => false
  | .pyStrList _, _ => false

/-- Python `str.startswith`. -/
def pyStartsWith (s pre : String) : Bool :=
  pre.toList.isPrefixOf s.toList

/-- Python `str.endswith`. -/
def pyEndsWith (s suf : String) : Bool :=
  suf.toList.isSuffixOf s.toList

/-- Boolean infix test on character lists: `sub` occurs contiguously. -/
def isInfixL (sub : List Char) : List Char → Bool
  | [] => sub.isPrefixOf ([] : List Char)
  | a :: t => sub.isPrefixOf (a :: t) || isInfixL sub t

/-- Python substring containment `sub in s`. -/
def pyIn (sub s : String) : Bool :=
  isInfixL sub.toList s.toList

/-- Decimal value of a list of ASCII digits. -/
def digitsToNat (cs : List Char) : Nat :=
  cs.foldl (fun n c => 10 * n + (c.toNat - ('0').toNat)) 0

/-- Python `int(s)` on a string: optional surrounding whitespace, an
optional sign, then a non-empty run of decimal digits; anything else
raises ValueError.  (CPython additionally allows single underscores
between digits; no string this spider slices can contain one.) -/
def pyIntOfStr (s : String) : Except PyErr Int :=
  let cs := ((s.toList.dropWhile (fun c => c.isWhitespace)).reverse.dropWhile
    (fun c => c.isWhitespace)).reverse
  let signed : Int × List Char :=
    match cs with
    | '+' :: rest => (1, rest)
    | '-' :: rest => (-1, rest)
    | rest => (1, rest)
  if signed.2 ≠ [] ∧ signed.2.all (fun c => c.isDigit) then
    .ok (signed.1 * (digitsToNat signed.2 : Int))
  else
    .error (.valueError "invalid literal for int() with base 10")

/-- Index of the last occurrence of `c`, scanning with a running index;
`acc` is the best index found so far (`-1` when none). -/
def rfindCharAux (c : Char) : List Char → Nat → Int → Int
  | [], _, acc => acc
  | x :: xs, i, acc => rfindCharAux c xs (i + 1) (if x = c then (i : Int) else acc)

/-- Python `str.rfind(c)` for a single character: index of the last
occurrence, `-1` when there is none. -/
def rfindChar (cs : List Char) (c : Char) : Int :=
  rfindCharAux c cs 0 (-1)

/-- Auxiliary scan for `str.find`: first index at which `sub` is a prefix
of the remaining characters, `-1` when there is none. -/
def pyFindAux (sub : List Char) : List Char → Nat → Int
  | [], i => if sub.isPrefixOf ([] : List Char) then (i : Int) else -1
  | a :: t, i =>
    if sub.isPrefixOf (a :: t) then (i : Int) else pyFindAux sub t (i + 1)

/-- Python `s.find(sub)`: index of the first occurrence of the substring
`sub` in `s`, `-1` when absent. -/
def py_str_find (s sub : String) : Int :=
  pyFindAux sub.toList s.toList 0

/-- Python slice `s[0:j]`: a negative `j` counts from the end, and the
bound is clamped to the length of the string. -/
def py_slice_to (s : String) (j : Int) : String :=
  let stop : Nat := if j < 0 then ((s.toList.length : Int) + j).toNat else j.toNat
  String.mk (s.toList.take stop)

/-- Python `s.split(sep)[0]`: the segment before the first occurrence of
the separator character, the whole string when the separator is absent
(`split` always returns a non-empty list, so indexing with 0 cannot fail). -/
def py_split_first (s : String) (sep : Char) : String :=
  String.mk (s.toList.takeWhile (fun c => c ≠ sep))

/-- CPython `posixpath.join` for two components: an absolute second
component replaces the path, otherwise the parts are glued with exactly
one separator. -/
def os_path_join (a b : String) : String :=
  if pyStartsWith b "/" then b
  else if a = "" ∨ pyEndsWith a "/" then a ++ b
  else a ++ "/" ++ b

/-- CPython `posixpath.dirname`: everything before the last separator;
trailing separators of the head are stripped unless the head is all
separators. -/
def os_path_dirname (p : String) : String :=
  let cs := p.toList
  let i := (rfindChar cs '/' + 1).toNat
  let head := cs.take i
  if head ≠ [] ∧ ¬ head.all (fun c => c = '/') then
    String.mk (head.reverse.dropWhile (fun c => c = '/')).reverse
  else
    String.mk head

/-- CPython `posixpath.basename`: everything after the last separator. -/
def os_path_basename (p : String) : String :=
  let cs := p.toList
  String.mk (cs.drop (rfindChar cs '/' + 1).toNat)

/-- CPython `posixpath.splitext` on the character list: the extension
starts at the last dot that lies after the last separator, unless every
character between the separator and that dot is itself a dot (a leading
dot of the base name starts no extension). -/
def splitextL (p : List Char) : List Char × List Char :=
  let sepIndex := rfindChar p '/'
  let dotIndex := rfindChar p '.'
  if sepIndex < dotIndex then
    let between := (p.take dotIndex.toNat).drop (sepIndex + 1).toNat
    if between.any (fun c => c ≠ '.') then
      (p.take dotIndex.toNat, p.drop dotIndex.toNat)
    else
      (p, [])
  else
    (p, [])

/-- `os.path.splitext` on strings. -/
def os_path_splitext (p : String) : String × String :=
  let r := splitextL p.toList
  (String.mk r.1, String.mk r.2)

/-- The extension-stripping loop of `handle_package_ftp` (source lines
183 to 187): `os.path.splitext` is applied again and again until the
extension comes back empty.  Every round with a non-empty extension
strictly shortens the string, so running the loop body `length + 1`
times is always enough fuel; `stripExtsFuel_spec` below proves the fuel
never runs out. -/
def stripExtsFuel : Nat → List Char → List Char
  | 0, p => p
  | fuel + 1, p =>
    let r := splitextL p
    if r.2 = [] then p else stripExtsFuel fuel r.1

/-- The target folder `handle_package_ftp` derives from the downloaded
bundle path: the path with every extension stripped (lines 183 to 187). -/
def zip_target_folder_of (zip_filepath : String) : String :=
  String.mk (stripExtsFuel (zip_filepath.toList.length + 1) zip_filepath.toList)

/-- The local disk: a finite map from absolute path strings to file
contents, newest write first.  Path strings are opaque keys, which
matches the real file system for the clean relative entry names zip
bundles carry (no `..` or `.` components, no leading separator). -/
structure FSState where
  files : List (String × String)
  deriving Repr, DecidableEq

/-- `os.path.exists` against the modelled disk. -/
def os_path_exists (fs : FSState) (p : String) : Bool :=
  fs.files.any (fun e => e.1 == p)

/-- A zip bundle: its entries in `namelist()` order, each with its
content. -/
structure ZipArchive where
  entries : List (String × String)
  deriving Repr, DecidableEq

/-- `ZipFile.namelist()`. -/
def ZipArchive.namelist (z : ZipArchive) : List String :=
  z.entries.map (fun e => e.1)

/-- Content of a named entry (entries reached through `namelist()` are
always present; absent names default to the empty content). -/
def ZipArchive.entryContent (z : ZipArchive) (name : String) : String :=
  ((z.entries.find? (fun e => e.1 == name)).map (fun e => e.2)).getD ""

/-- `ZipFile.extract(name, target)`: writes the entry content at
`os.path.join(target, name)`. -/
def zip_extract (z : ZipArchive) (name target : String) (fs : FSState) : FSState :=
  ⟨(os_path_join target name, z.entryContent name) :: fs.files⟩

/-- The loop body of `unzip_files` (source lines 40 to 45), walking the
entry names: an entry whose name ends with the requested suffix has its
absolute path computed; it is extracted only when that path does not yet
exist, and the path is appended to the returned list either way.  `acc`
is the list built so far. -/
def unzip_go (z : ZipArchive) (target_folder ty : String) :
    List String → FSState → List String → FSState × List String
  | [], fs, acc => (fs, acc)
  | filename :: rest, fs, acc =>
    if pyEndsWith filename ty then
      let absolute_path := os_path_join target_folder filename
      let fs2 := if os_path_exists fs absolute_path then fs
        else zip_extract z filename target_folder fs
      unzip_go z target_folder ty rest fs2 (acc ++ [absolute_path])
    else
      unzip_go z target_folder ty rest fs acc

/-- `unzip_files(filename, target_folder, type)` (source lines 36 to 46):
unpack the entries of the bundle whose name ends with `ty` (the source
calls this parameter `type`, default ".xml") into the target folder,
skipping entries already present on disk, and return the computed
absolute paths of all matching entries. -/
def unzip_files (z : ZipArchive) (target_folder ty : String) (fs : FSState) :
    FSState × List String :=
  unzip_go z target_folder ty z.namelist fs []

/-- The request yielded by `handle_package_ftp` for one unpacked XML
file (source lines 198 to 209), with the meta fields it carries. -/
structure XmlRequest where
  url : String
  package_path : String
  xml_url : String
  pdf_url : String
  pdfa_url : String
  deriving Repr, DecidableEq

/-- Construction of one XML extraction request: the sibling PDF paths
are computed from the directory and the base name of the XML file (the
base name is cut at its first dot by `split` and indexing with 0), never
checked against the disk. -/
def xml_request_of (zip_filepath xml_file : String) : XmlRequest :=
  let dir_path := os_path_dirname xml_file
  let filename := py_split_first (os_path_basename xml_file) '.'
  { url := "file://" ++ xml_file
    package_path := zip_filepath
    xml_url := xml_file
    pdf_url := os_path_join (os_path_join dir_path "pdf") (filename ++ "." ++ "pdf")
    pdfa_url := os_path_join (os_path_join dir_path "archival") (filename ++ "." ++ "pdf") }

/-- `handle_package_ftp` (source lines 179 to 209).  The downloaded
bundle path is `response.body`; the target folder is the path stripped
of all its extensions.  Three sequential branches, each reassigning the
target folder exactly as the source mutates `zip_target_folder`:
if ".pdf" occurs in the bundle path, PDF entries are unpacked into a
`pdf` subfolder; if the (possibly reassigned) target folder now ends
with "_archival", the folder is cut at the first occurrence of
"_archival" (`str.find`) and PDF entries are unpacked into an `archival`
subfolder of the cut name; if ".xml" occurs in the bundle path, XML
entries are unpacked into the current target folder and one request per
XML file is yielded. -/
def handle_package_ftp (zip_filepath : String) (z : ZipArchive) (fs0 : FSState) :
    FSState × List XmlRequest :=
  let tf0 := zip_target_folder_of zip_filepath
  let s1 : String × FSState :=
    if pyIn ".pdf" zip_filepath then
      let t := os_path_join tf0 "pdf"
      (t, (unzip_files z t ".pdf" fs0).1)
    else (tf0, fs0)
  let s2 : String × FSState :=
    if pyEndsWith s1.1 "_archival" then
      let t0 := py_slice_to s1.1 (py_str_find s1.1 "_archival")
      let t := os_path_join t0 "archival"
      (t, (unzip_files z t ".pdf" s1.2).1)
    else s1
  if pyIn ".xml" zip_filepath then
    let r := unzip_files z s2.1 ".xml" s2.2
    (r.1, r.2.map (xml_request_of zip_filepath))
  else (s2.2, [])

/-- `ftp_list_folders` (source lines 49 to 57) applied to the listing
the FTP host returns for the server folder: entries whose name starts
with a dot are skipped. -/
def ftp_list_folders (listing : List String) : List String :=
  listing.filter (fun folder => !(pyStartsWith folder "."))

/-- A request yielded by `start_requests`: the url, the local download
file name carried in the request meta (absent for the local-package
mode), and the callback the request is dispatched to. -/
structure CrawlRequest where
  url : String
  ftp_local_filename : Option String
  callback : String
  deriving Repr, DecidableEq

/-- The download request built for one remote zip file (source lines
168 to 177): an `ftp://host/path` url, and a local file name joining the
download folder with the download-stamp prefix and the remote base name. -/
def ftp_zip_request (ftp_host target_folder new_download_name remote_file : String) :
    CrawlRequest :=
  { url := "ftp://" ++ ftp_host ++ "/" ++ remote_file
    ftp_local_filename := some (os_path_join target_folder
      (new_download_name ++ "_" ++ os_path_basename remote_file))
    callback := "handle_package_ftp" }

/-- `start_requests` (source lines 144 to 177).  With a `package_path`
the single local package is dispatched to `handle_package_file`.
Otherwise the remote folders are listed, hidden folders are skipped by
`ftp_list_folders`, the new files of each folder are listed by the
external `ftp_list_files` utility (modelled as the input `new_files_of`,
applied to `os.path.join(ftp_folder, folder)`), and every listed file
whose path contains ".zip" as a substring yields one download request.
`generate_download_name`, a timestamp of the current local time, is an
external input and enters as the parameter `new_download_name`. -/
def start_requests (package_path : Option String) (ftp_host : String)
    (folder_listing : List String) (new_files_of : String → List String)
    (new_download_name target_folder ftp_folder : String) : List CrawlRequest :=
  match package_path with
  | some p => [{ url := p, ftp_local_filename := none, callback := "handle_package_file" }]
  | none =>
    (ftp_list_folders folder_listing).flatMap (fun folder =>
      (new_files_of (os_path_join ftp_folder folder)).filterMap (fun remote_file =>
        if pyIn ".zip" remote_file then
          some (ftp_zip_request ftp_host target_folder new_download_name remote_file)
        else none))

/-- The discrete date nodes of one article document, consumed by the
date computation. -/
structure PubDate where
  year : Option Nat
  month : Option Nat
  day : Option Nat
  deriving Repr, DecidableEq

/-- One parsed article document, represented by the values each fixed
xpath query of `parse_node` extracts from it, in document order.
`article_type_attr` is the `article-type` attribute of the article node
(at most one match).  `authors_value`, `free_keywords_value` and
`classification_numbers_value` carry the outputs of the `Jats` mixin
helpers `_get_authors` and `_get_keywords`, which live outside the
sources at hand and whose outputs enter the record unchanged. -/
structure ArticleDocument where
  article_type_attr : Option String
  related_dois : List String
  dois : List String
  arxiv_ids : List String
  page_counts : List String
  abstracts : List String
  titles : List String
  subtitles : List String
  authors_value : List (String × List String)
  collaborations : List String
  free_keywords_value : List String
  classification_numbers_value : List String
  pub_date : PubDate
  journal_titles : List String
  journal_issues : List String
  journal_volumes : List String
  journal_artids : List String
  fpages : List String
  lpages : List String
  copyright_holders : List String
  copyright_years : List String
  copyright_statements : List String
  license_urls : List String
  deriving Repr, DecidableEq

/-- A document with every extraction empty. -/
def emptyDoc : ArticleDocument :=
  { article_type_attr := none
    related_dois := []
    dois := []
    arxiv_ids := []
    page_counts := []
    abstracts := []
    titles := []
    subtitles := []
    authors_value := []
    collaborations := []
    free_keywords_value := []
    classification_numbers_value := []
    pub_date := { year := none, month := none, day := none }
    journal_titles := []
    journal_issues := []
    journal_volumes := []
    journal_artids := []
    fpages := []
    lpages := []
    copyright_holders := []
    copyright_years := []
    copyright_statements := []
    license_urls := [] }

/-- The scan inside `get_arxiv` (source lines 67 to 71): walk the
extracted arXiv id texts in document order and return the first truthy
(non-empty) one. -/
def get_arxiv_scan : List String → Option String
  | [] => none
  | ar :: rest => if ar = "" then get_arxiv_scan rest else some ar

/-- `get_arxiv(node)` (source lines 65 to 71): the first non-empty text
among the article-id nodes typed arxiv, `None` when there is none. -/
def get_arxiv (node : ArticleDocument) : Option String :=
  get_arxiv_scan node.arxiv_ids

/-- `allowed_article_types` (source lines 108 to 118). -/
def allowed_article_types : List String :=
  ["research-article", "corrected-article", "original-article", "introduction",
   "letter", "correction", "addendum", "review-article", "rapid-communications"]

/-- `article_type_mapping` (source lines 120 to 130). -/
def article_type_mapping : List (String × String) :=
  [("research-article", "article"), ("corrected-article", "article"),
   ("original-article", "article"), ("correction", "corrigendum"),
   ("addendum", "addendum"), ("introduction", "other"), ("letter", "other"),
   ("review-article", "other"), ("rapid-communications", "other")]

/-- `default_article_type` (source line 131). -/
def default_article_type : String := "unknown"

/-- Python `dict.get(key, default)` for a dict with string keys: a string
key is looked up, `None` is hashable and matches no string key, and a
list key raises TypeError (lists are unhashable). -/
def py_dict_get (m : List (String × String)) (key : PyVal) (default : String) :
    Except PyErr String :=
  match key with
  | .pyStr s => .ok (((m.find? (fun e => e.1 == s)).map (fun e => e.2)).getD default)
  | .pyNone => .ok default
  | .pyStrList _ => .error (.typeError "unhashable type: list")

/-- Left-pad a decimal rendering with zeroes to the given width. -/
def padNum (w n : Nat) : String :=
  let d := toString n
  String.mk (List.replicate (w - d.length) '0') ++ d

/-- Modelled from the spec: `Jats._get_published_date`
(hepcrawl/extractors/jats.py, not among the sources at hand) assembles a
normalized date from the discrete day, month and year nodes, zero-padded
to the canonical YYYY[-MM[-DD]] form, keeping the longest determinable
prefix when trailing components are missing (the empty string when even
the year is missing). -/
def get_published_date (d : PubDate) : String :=
  match d.year with
  | none => ""
  | some y =>
    padNum 4 y ++
      (match d.month with
      | none => ""
      | some m =>
        "-" ++ padNum 2 m ++
          (match d.day with
          | none => ""
          | some dd => "-" ++ padNum 2 dd))

/-- One record entry of `report_numbers`. -/
structure ReportNumber where
  source : String
  value : Option String
  deriving Repr, DecidableEq

/-- One record entry of `local_files`. -/
structure LocalFile where
  filetype : String
  path : String
  deriving Repr, DecidableEq

/-- The meta dictionary of the response `parse_node` handles: the keys
`handle_package_ftp` sets, each possibly absent. -/
structure TaskMeta where
  package_path : Option String
  xml_url : Option String
  pdf_url : Option String
  pdfa_url : Option String
  deriving Repr, DecidableEq

/-- The `local_files` list built at source lines 276 to 282: one entry
per meta key present, in the fixed order xml, pdf, pdf/a, independent of
whether the paths exist on disk. -/
def local_files_of (meta : TaskMeta) : List LocalFile :=
  (match meta.xml_url with
   | some p => [{ filetype := "xml", path := p }]
   | none => []) ++
  (match meta.pdf_url with
   | some p => [{ filetype := "pdf", path := p }]
   | none => []) ++
  (match meta.pdfa_url with
   | some p => [{ filetype := "pdf/a", path := p }]
   | none => [])

/-- The normalized record `parse_node` emits: one field per loader field
the source fills.  The loader (`HEPLoader`/`HEPRecord`, outside the
sources at hand) records the value each `add_value`/`add_xpath` call
supplies; `original_doctype` receives the dynamic `article_type` value
itself, so the field keeps the `PyVal` type.  `date_published` is
supplied twice by the source (lines 242 and 258) with the value of the
same deterministic computation, so one field suffices. -/
structure HEPRecord where
  related_article_doi : List String
  dois : List String
  report_numbers : List ReportNumber
  page_nr : List String
  abstract : List String
  title : List String
  subtitle : List String
  authors : List (String × List String)
  collaborations : List String
  free_keywords : List String
  classification_numbers : List String
  date_published : String
  journal_title : List String
  journal_issue : List String
  journal_volume : List String
  journal_artid : List String
  journal_fpage : List String
  journal_lpage : List String
  journal_year : Int
  copyright_holder : List String
  copyright_year : List String
  copyright_statement : List String
  copyright_material : String
  license_url_input : Option String
  collections : List String
  original_doctype : PyVal
  doctype : String
  local_files : List LocalFile
  deriving Repr, DecidableEq

/-- The value of `node.xpath(...).extract()` at source line 214: the
list of matched attribute strings (empty or a singleton, since the query
reads one attribute of the article node itself). -/
def xpath_article_type (node : ArticleDocument) : PyVal :=
  .pyStrList node.article_type_attr.toList

/-- `parse_node` (source lines 211 to 290), translated line by line.
Line 214 calls `.lower()` on the list `extract()` returns, line 216
tests `article_type is None` and then subscripts `article_type[0]` for
the membership test against `allowed_article_types`, returning `None`
for filtered documents; the remaining lines build the record, computing
`journal_year` as `int(published_date[:4])` (line 257) and `doctype`
through `article_type_mapping.get` (line 273).  Each Python runtime
error propagates through the `Except` monad at the program point where
CPython would raise it.  External collaborators: `get_license`
(hepcrawl/utils.py) maps the first license url, so the record keeps the
url the source passes to it. -/
def parse_node (node : ArticleDocument) (meta : TaskMeta) :
    Except PyErr (Option HEPRecord) := do
  let article_type ← (xpath_article_type node).lower
  if article_type = PyVal.pyNone then
    return none
  else
    let head ← article_type.subscript 0
    if !(head.inStrList allowed_article_types) then
      return none
    else
      let related := if article_type.inStrList ["correction", "addendum"] then
        node.related_dois else []
      let published_date := get_published_date node.pub_date
      let journal_year ← pyIntOfStr (py_slice_to published_date 4)
      let doctype ← py_dict_get article_type_mapping article_type default_article_type
      return some
        { related_article_doi := related
          dois := node.dois
          report_numbers := [{ source := "arXiv", value := get_arxiv node }]
          page_nr := node.page_counts
          abstract := node.abstracts
          title := node.titles
          subtitle := node.subtitles
          authors := node.authors_value
          collaborations := node.collaborations
          free_keywords := node.free_keywords_value
          classification_numbers := node.classification_numbers_value
          date_published := published_date
          journal_title := node.journal_titles
          journal_issue := node.journal_issues
          journal_volume := node.journal_volumes
          journal_artid := node.journal_artids
          journal_fpage := node.fpages
          journal_lpage := node.lpages
          journal_year := journal_year
          copyright_holder := node.copyright_holders
          copyright_year := node.copyright_years
          copyright_statement := node.copyright_statements
          copyright_material := "Article"
          license_url_input := node.license_urls.head?
          collections := ["Progress of Theoretical and Experimental Physics"]
          original_doctype := article_type
          doctype := doctype
          local_files := local_files_of meta }

/-- The empty response meta. -/
def metaNone : TaskMeta :=
  { package_path := none, xml_url := none, pdf_url := none, pdfa_url := none }

/-! ## Helper lemmas -/

/-- Existence on the disk after one `zip_extract`: the written path, or
anything that already existed. -/
theorem os_path_exists_zip_extract (z : ZipArchive) (fs : FSState)
    (target name p : String) :
    os_path_exists (zip_extract z name target fs) p
      = ((os_path_join target name == p) || os_path_exists fs p) := rfl

/-- Existence on the disk is preserved by the `unzip_files` loop. -/
theorem unzip_go_exists_mono (z : ZipArchive) (tf ty : String) :
    ∀ (L : List String) (fs : FSState) (acc : List String) (p : String),
    os_path_exists fs p = true →
    os_path_exists (unzip_go z tf ty L fs acc).1 p = true := by
  intro L
  induction L with
  | nil =>
    intro fs acc p h
    simpa [unzip_go] using h
  | cons a rest ih =>
    intro fs acc p h
    by_cases hty : pyEndsWith a ty
    · by_cases hex : os_path_exists fs (os_path_join tf a)
      · simp only [unzip_go, hty, if_true, hex]
        exact ih _ _ _ h
      · simp only [unzip_go, hty, if_true]
        rw [if_neg hex]
        apply ih
        rw [os_path_exists_zip_extract, h]
        simp
    · simp only [unzip_go, hty]
      simp only [Bool.false_eq_true, if_false]
      exact ih _ _ _ h

/-- After the `unzip_files` loop runs over a list containing a matching
entry, the entry's computed absolute path exists on the disk. -/
theorem unzip_go_makes_exist (z : ZipArchive) (tf ty : String) :
    ∀ (L : List String) (fs : FSState) (acc : List String) (e : String),
    e ∈ L → pyEndsWith e ty = true →
    os_path_exists (unzip_go z tf ty L fs acc).1 (os_path_join tf e) = true := by
  intro L
  induction L with
  | nil =>
    intro fs acc e he
    simp at he
  | cons a rest ih =>
    intro fs acc e he hty
    rcases List.mem_cons.mp he with rfl | hmem
    · by_cases hex : os_path_exists fs (os_path_join tf e)
      · simp only [unzip_go, hty, if_true, hex]
        exact unzip_go_exists_mono z tf ty rest _ _ _ hex
      · simp only [unzip_go, hty, if_true]
        rw [if_neg hex]
        apply unzip_go_exists_mono
        rw [os_path_exists_zip_extract]
        simp
    · by_cases haty : pyEndsWith a ty
      · simp only [unzip_go, haty, if_true]
        exact ih _ _ _ hmem hty
      · simp only [unzip_go, haty, Bool.false_eq_true, if_false]
        exact ih _ _ _ hmem hty

/-- When every matching entry of the list already has its computed path
on the disk, the `unzip_files` loop leaves the disk untouched. -/
theorem unzip_go_skip_all (z : ZipArchive) (tf ty : String) :
    ∀ (L : List String) (fs : FSState) (acc : List String),
    (∀ e, e ∈ L → pyEndsWith e ty = true →
      os_path_exists fs (os_path_join tf e) = true) →
    (unzip_go z tf ty L fs acc).1 = fs := by
  intro L
  induction L with
  | nil =>
    intro fs acc _
    rfl
  | cons a rest ih =>
    intro fs acc h
    by_cases haty : pyEndsWith a ty
    · have hex := h a (List.mem_cons_self a rest) haty
      simp only [unzip_go, haty, if_true, hex]
      exact ih _ _ (fun e he hty => h e (List.mem_cons_of_mem a he) hty)
    · simp only [unzip_go, haty, Bool.false_eq_true, if_false]
      exact ih _ _ (fun e he hty => h e (List.mem_cons_of_mem a he) hty)

/-- The list the `unzip_files` loop returns: the accumulator followed by
the computed path of every matching entry, existing or not. -/
theorem unzip_go_snd (z : ZipArchive) (tf ty : String) :
    ∀ (L : List String) (fs : FSState) (acc : List String),
    (unzip_go z tf ty L fs acc).2
      = acc ++ (L.filter (fun e => pyEndsWith e ty)).map (fun e => os_path_join tf e) := by
  intro L
  induction L with
  | nil =>
    intro fs acc
    simp [unzip_go]
  | cons a rest ih =>
    intro fs acc
    by_cases haty : pyEndsWith a ty
    · by_cases hex : os_path_exists fs (os_path_join tf a)
      · simp [unzip_go, haty, hex, ih, List.filter_cons]
      · simp [unzip_go, haty, hex, ih, List.filter_cons]
    · simp [unzip_go, haty, ih, List.filter_cons]

/-- Existence on the disk is preserved by `unzip_files`. -/
theorem unzip_files_exists_mono (z : ZipArchive) (tf ty : String) (fs : FSState)
    (p : String) (h : os_path_exists fs p = true) :
    os_path_exists (unzip_files z tf ty fs).1 p = true :=
  unzip_go_exists_mono z tf ty z.namelist fs [] p h

/-- After `unzip_files`, every matching entry's computed path exists. -/
theorem unzip_files_makes_exist (z : ZipArchive) (tf ty : String) (fs : FSState)
    (e : String) (he : e ∈ z.namelist) (hty : pyEndsWith e ty = true) :
    os_path_exists (unzip_files z tf ty fs).1 (os_path_join tf e) = true :=
  unzip_go_makes_exist z tf ty z.namelist fs [] e he hty

/-- The running rfind scan stays below the index bound. -/
theorem rfindCharAux_lt (c : Char) :
    ∀ (cs : List Char) (i : Nat) (acc : Int), acc < (i : Int) →
    rfindCharAux c cs i acc < (i : Int) + cs.length := by
  intro cs
  induction cs with
  | nil =>
    intro i acc h
    simp only [rfindCharAux, List.length_nil, Nat.cast_zero, add_zero]
    exact h
  | cons x xs ih =>
    intro i acc h
    simp only [rfindCharAux, List.length_cons]
    have h2 : (if x = c then (i : Int) else acc) < ((i + 1 : Nat) : Int) := by
      split <;> push_cast <;> omega
    have h3 := ih (i + 1) _ h2
    push_cast at h3 ⊢
    omega

/-- The running rfind scan never drops below -1. -/
theorem rfindCharAux_ge (c : Char) :
    ∀ (cs : List Char) (i : Nat) (acc : Int), -1 ≤ acc →
    -1 ≤ rfindCharAux c cs i acc := by
  intro cs
  induction cs with
  | nil =>
    intro i acc h
    simpa [rfindCharAux] using h
  | cons x xs ih =>
    intro i acc h
    simp only [rfindCharAux]
    apply ih
    split <;> omega

/-- `rfindChar` returns an index below the length of the list. -/
theorem rfindChar_lt (cs : List Char) (c : Char) :
    rfindChar cs c < (cs.length : Int) := by
  have := rfindCharAux_lt c cs 0 (-1) (by norm_num)
  simpa [rfindChar] using this

/-- `rfindChar` returns -1 or a valid index. -/
theorem rfindChar_ge (cs : List Char) (c : Char) : -1 ≤ rfindChar cs c :=
  rfindCharAux_ge c cs 0 (-1) le_rfl

/-- One `splitext` round either returns an empty extension or strictly
shortens the root, which stays a prefix of the input. -/
theorem splitextL_cases (cs : List Char) :
    (splitextL cs).2 = []
    ∨ ((splitextL cs).1.length < cs.length ∧ (splitextL cs).1 <+: cs) := by
  simp only [splitextL]
  by_cases h1 : rfindChar cs '/' < rfindChar cs '.'
  · rw [if_pos h1]
    by_cases h2 : ((cs.take (rfindChar cs '.').toNat).drop
        ((rfindChar cs '/') + 1).toNat).any (fun c => c ≠ '.') = true
    · rw [if_pos h2]
      right
      constructor
      · have hlt := rfindChar_lt cs '.'
        have hge := rfindChar_ge cs '/'
        have hd : (rfindChar cs '.').toNat < cs.length := by omega
        simp only [List.length_take]
        omega
      · exact List.take_prefix _ _
    · rw [if_neg h2]
      left
      rfl
  · rw [if_neg h1]
    left
    rfl

/-- The fuelled extension-stripping loop, run with more fuel than the
length of its input, reaches a name with no extension left, and that
name is a prefix of the input: so `length + 1` fuel implements the
unbounded `while` loop of the source exactly. -/
theorem stripExtsFuel_spec :
    ∀ (fuel : Nat) (cs : List Char), cs.length < fuel →
    (splitextL (stripExtsFuel fuel cs)).2 = [] ∧ stripExtsFuel fuel cs <+: cs := by
  intro fuel
  induction fuel with
  | zero =>
    intro cs h
    exact absurd h (Nat.not_lt_zero _)
  | succ n ih =>
    intro cs h
    by_cases hext : (splitextL cs).2 = []
    · have hstep : stripExtsFuel (n + 1) cs = cs := by
        simp [stripExtsFuel, hext]
      rw [hstep]
      exact ⟨hext, List.prefix_refl _⟩
    · rcases splitextL_cases cs with h0 | ⟨hlen, hpre⟩
      · exact absurd h0 hext
      · have hstep : stripExtsFuel (n + 1) cs = stripExtsFuel n (splitextL cs).1 := by
          simp only [stripExtsFuel, hext, if_false]
        have hlt : (splitextL cs).1.length < n := by omega
        refine ⟨?_, ?_⟩
        · rw [hstep]
          exact (ih _ hlt).1
        · rw [hstep]
          exact (ih _ hlt).2.trans hpre

/-- The `get_arxiv` scan is exactly: first element satisfying
non-emptiness, in list order. -/
theorem get_arxiv_scan_eq_find :
    ∀ l : List String, get_arxiv_scan l = l.find? (fun s => s ≠ "") := by
  intro l
  induction l with
  | nil => rfl
  | cons a t ih =>
    by_cases h : a = ""
    · subst h
      simp [get_arxiv_scan, List.find?, ih]
    · simp [get_arxiv_scan, List.find?, h, ih]

/-! ## Claim theorems -/

/-- C1: the claim says a document whose article-type attribute is absent,
or whose lowercased value is outside the allowed set, makes `parse_node`
return null immediately and without error.  The code instead raises
AttributeError on every document at line 214: `extract()` returns a
Python list and a list has no `lower` method.  Evaluated here on a
document with the disallowed type "abstract" and on one with no
article-type attribute at all: both raise instead of returning null. -/
theorem parse_node_disallowed_type_raises :
    parse_node { emptyDoc with article_type_attr := some "abstract" } metaNone
        = Except.error (PyErr.attributeError "lower")
    ∧ parse_node emptyDoc metaNone = Except.error (PyErr.attributeError "lower") :=
  ⟨rfl, rfl⟩

/-- C2: the claim says a document with an allowed raw article-type is
emitted with `doctype` equal to the mapping-table entry and
`original_doctype` equal to the raw value.  The code emits no record at
all: evaluated on a document with allowed type "research-article",
`parse_node` raises AttributeError at line 214 (list has no `lower`),
although the mapping table does carry the entry "article" for that type. -/
theorem parse_node_allowed_type_never_emits :
    parse_node
        { emptyDoc with
          article_type_attr := some "research-article"
          pub_date := { year := some 2021, month := some 11, day := some 5 } }
        metaNone
      = Except.error (PyErr.attributeError "lower")
    ∧ py_dict_get article_type_mapping (PyVal.pyStr "research-article") default_article_type
      = Except.ok "article" :=
  ⟨rfl, rfl⟩

/-- C3: the claim relates `journal_year` and `date_published` of every
emitted record.  No record is ever emitted: evaluated on a document with
allowed type "research-article" and a complete date, `parse_node` raises
AttributeError at line 214 before the date slice at line 257 runs.  The
slice itself, applied to the computed date string, would indeed give the
integer of the first four characters. -/
theorem parse_node_journal_year_unreachable :
    parse_node
        { emptyDoc with
          article_type_attr := some "research-article"
          pub_date := { year := some 2022, month := some 3, day := some 15 } }
        metaNone
      = Except.error (PyErr.attributeError "lower")
    ∧ get_published_date { year := some 2022, month := some 3, day := some 15 }
      = "2022-03-15"
    ∧ pyIntOfStr (py_slice_to "2022-03-15" 4) = Except.ok 2022 :=
  ⟨rfl, rfl, rfl⟩

/-- C4: an archive entry whose computed absolute path already exists on
disk is skipped by `unzip_files`, so unpacking the same bundle a second
time changes nothing on disk: the disk after the second run equals the
disk after the first, for every bundle, target folder, suffix and
starting disk. -/
theorem unzip_files_idempotent (z : ZipArchive) (target_folder ty : String)
    (fs : FSState) :
    (unzip_files z target_folder ty (unzip_files z target_folder ty fs).1).1
      = (unzip_files z target_folder ty fs).1 := by
  show (unzip_go z target_folder ty z.namelist _ []).1 = _
  apply unzip_go_skip_all
  intro e he hty
  exact unzip_files_makes_exist z target_folder ty fs e he hty

/-- C7: `get_arxiv` returns the first (in document order) arXiv-typed
article-id text that is non-empty, and returns `None` exactly when every
such text is empty (in particular when there is none). -/
theorem get_arxiv_first_nonempty (node : ArticleDocument) :
    get_arxiv node = node.arxiv_ids.find? (fun s => s ≠ "")
    ∧ (get_arxiv node = none ↔ ∀ s ∈ node.arxiv_ids, s = "") := by
  refine ⟨get_arxiv_scan_eq_find _, ?_⟩
  rw [get_arxiv, get_arxiv_scan_eq_find]
  simp [List.find?_eq_none]

/-- C9: `unzip_files` returns the computed absolute path of every archive
entry whose name ends with the suffix, in `namelist()` order, whatever
the starting disk holds — entries skipped because their path already
exists are returned all the same. -/
theorem unzip_files_returns_all_matches (z : ZipArchive) (target_folder ty : String)
    (fs : FSState) :
    (unzip_files z target_folder ty fs).2
      = (z.namelist.filter (fun e => pyEndsWith e ty)).map
          (fun e => os_path_join target_folder e) := by
  simpa using unzip_go_snd z target_folder ty z.namelist fs []

/-- C5 counterexample: the claim as stated says a bundle whose target
name ends with `_archival` has its PDF entries extracted into an
`archival` subfolder of the target name with the trailing `_archival`
suffix stripped.  For the bundle `/t/x_archival_archival.zip` the target
name is `/t/x_archival_archival`; stripping the trailing suffix would
give `/t/x_archival/archival/p.pdf`, but no such file is written: the
code cuts at the first occurrence of `_archival` (`str.find`) and
writes `/t/x/archival/p.pdf` instead. -/
theorem handle_package_ftp_archival_suffix_cex :
    os_path_exists
      (handle_package_ftp "/t/x_archival_archival.zip"
        (ZipArchive.mk [("p.pdf", "c")]) (FSState.mk [])).1
      "/t/x_archival/archival/p.pdf" = false
    ∧ os_path_exists
      (handle_package_ftp "/t/x_archival_archival.zip"
        (ZipArchive.mk [("p.pdf", "c")]) (FSState.mk [])).1
      "/t/x/archival/p.pdf" = true := by
  decide

/-- C5 amended: for every bundle path that does not contain ".pdf" (so
the target folder is not reassigned by the pdf branch) and whose derived
target folder ends with `_archival`, `handle_package_ftp` extracts every
`.pdf` entry of the bundle into the `archival` subfolder of the target
folder cut at the FIRST occurrence of `_archival`; when `_archival`
occurs exactly once that cut equals the suffix-stripped name. -/
theorem handle_package_ftp_archival_first_occurrence (zip_filepath : String)
    (z : ZipArchive) (fs : FSState) (e : String)
    (hpdf : pyIn ".pdf" zip_filepath = false)
    (harch : pyEndsWith (zip_target_folder_of zip_filepath) "_archival" = true)
    (he : e ∈ z.namelist) (hty : pyEndsWith e ".pdf" = true) :
    os_path_exists (handle_package_ftp zip_filepath z fs).1
      (os_path_join (os_path_join
        (py_slice_to (zip_target_folder_of zip_filepath)
          (py_str_find (zip_target_folder_of zip_filepath) "_archival")) "archival") e)
      = true := by
  unfold handle_package_ftp
  simp only [hpdf, Bool.false_eq_true, if_false, harch, if_true]
  by_cases hxml : pyIn ".xml" zip_filepath
  · simp only [hxml, if_true]
    exact unzip_files_exists_mono _ _ _ _ _
      (unzip_files_makes_exist _ _ _ _ _ he hty)
  · simp only [hxml, Bool.false_eq_true, if_false]
    exact unzip_files_makes_exist _ _ _ _ _ he hty

/-- C5 witness: the amended routing applied to the concrete bundle
`/t/box_archival.zip` holding one entry `p.pdf`, which lands in
`/t/box/archival/p.pdf`. -/
theorem handle_package_ftp_archival_first_occurrence_witness :
    pyIn ".pdf" "/t/box_archival.zip" = false
    ∧ pyEndsWith (zip_target_folder_of "/t/box_archival.zip") "_archival" = true
    ∧ "p.pdf" ∈ (ZipArchive.mk [("p.pdf", "c")]).namelist
    ∧ pyEndsWith "p.pdf" ".pdf" = true
    ∧ os_path_exists
        (handle_package_ftp "/t/box_archival.zip" (ZipArchive.mk [("p.pdf", "c")])
          (FSState.mk [])).1
        (os_path_join (os_path_join
          (py_slice_to (zip_target_folder_of "/t/box_archival.zip")
            (py_str_find (zip_target_folder_of "/t/box_archival.zip") "_archival"))
          "archival") "p.pdf") = true :=
  ⟨by decide, by decide, by decide, by decide,
    handle_package_ftp_archival_first_occurrence "/t/box_archival.zip"
      (ZipArchive.mk [("p.pdf", "c")]) (FSState.mk []) "p.pdf"
      (by decide) (by decide) (by decide) (by decide)⟩

/-- C6 counterexample: the claim as stated says only the outermost
extension is stripped, so the bundle `dir/a.xml.zip` would be unpacked
under `dir/a.xml`.  It is not: the loop strips extensions repeatedly,
the XML entry lands under `dir/a`, and the derived folder is `dir/a`. -/
theorem zip_target_folder_of_outermost_cex :
    os_path_exists
      (handle_package_ftp "dir/a.xml.zip" (ZipArchive.mk [("e.xml", "c")])
        (FSState.mk [])).1 "dir/a.xml/e.xml" = false
    ∧ os_path_exists
      (handle_package_ftp "dir/a.xml.zip" (ZipArchive.mk [("e.xml", "c")])
        (FSState.mk [])).1 "dir/a/e.xml" = true
    ∧ zip_target_folder_of "dir/a.xml.zip" = "dir/a" := by
  decide

/-- C6 amended: `handle_package_ftp` derives the target extraction
directory by stripping file extensions from the bundle path again and
again until none remains: the derived name has an empty
`os.path.splitext` extension, and is an initial segment of the bundle
path. -/
theorem zip_target_folder_of_strips_all_exts (p : String) :
    (os_path_splitext (zip_target_folder_of p)).2 = ""
    ∧ (zip_target_folder_of p).toList.isPrefixOf p.toList = true := by
  have h := stripExtsFuel_spec (p.toList.length + 1) p.toList (by omega)
  constructor
  · show String.mk (splitextL (stripExtsFuel (p.toList.length + 1) p.toList)).2 = ""
    rw [h.1]
  · show (stripExtsFuel (p.toList.length + 1) p.toList).isPrefixOf p.toList = true
    rw [List.isPrefixOf_iff_prefix]
    exact h.2

/-- C8 counterexample: the claim as stated says the computed sibling PDF
paths use the XML base name without its extension.  For the extracted
file `x.y.xml` that would be `x.y.pdf`; the dispatched task instead
carries `/t/b/pdf/x.pdf`, because the code cuts the base name at its
first dot. -/
theorem handle_package_ftp_sibling_pdf_paths_cex :
    ((handle_package_ftp "/t/b.xml.zip" (ZipArchive.mk [("x.y.xml", "c")])
        (FSState.mk [])).2.map (fun r => r.pdf_url)) = ["/t/b/pdf/x.pdf"]
    ∧ ("/t/b/pdf/x.pdf" : String) ≠ "/t/b/pdf/x.y.pdf" := by
  decide

/-- C8 amended: every task dispatched by `handle_package_ftp` carries the
two computed sibling PDF paths `dir/pdf/base.pdf` and
`dir/archival/base.pdf`, where `dir` is the directory of the task's XML
path and `base` is the XML base name cut at its FIRST dot (equal to the
extension-stripped base name whenever the base name holds a single dot).
The paths hold for every starting disk: they are computed, never checked
for existence. -/
theorem handle_package_ftp_sibling_pdf_paths (zip_filepath : String) (z : ZipArchive)
    (fs : FSState) (r : XmlRequest)
    (hr : r ∈ (handle_package_ftp zip_filepath z fs).2) :
    r.pdf_url = os_path_join (os_path_join (os_path_dirname r.xml_url) "pdf")
        (py_split_first (os_path_basename r.xml_url) '.' ++ "." ++ "pdf")
    ∧ r.pdfa_url = os_path_join (os_path_join (os_path_dirname r.xml_url) "archival")
        (py_split_first (os_path_basename r.xml_url) '.' ++ "." ++ "pdf") := by
  unfold handle_package_ftp at hr
  by_cases hxml : pyIn ".xml" zip_filepath
  · simp only [hxml, if_true] at hr
    rcases List.mem_map.mp hr with ⟨x, hx, rfl⟩
    exact ⟨rfl, rfl⟩
  · simp only [hxml, Bool.false_eq_true, if_false] at hr
    simp at hr

/-- C8 witness: the sibling-path relation applied to the one task the
bundle `/t/b.xml.zip` with entry `x.y.xml` dispatches. -/
theorem handle_package_ftp_sibling_pdf_paths_witness :
    (xml_request_of "/t/b.xml.zip" "/t/b/x.y.xml")
        ∈ (handle_package_ftp "/t/b.xml.zip" (ZipArchive.mk [("x.y.xml", "c")])
            (FSState.mk [])).2
    ∧ (xml_request_of "/t/b.xml.zip" "/t/b/x.y.xml").pdf_url
        = os_path_join
            (os_path_join
              (os_path_dirname (xml_request_of "/t/b.xml.zip" "/t/b/x.y.xml").xml_url)
              "pdf")
            (py_split_first
              (os_path_basename (xml_request_of "/t/b.xml.zip" "/t/b/x.y.xml").xml_url)
              '.' ++ "." ++ "pdf") :=
  ⟨by decide,
    (handle_package_ftp_sibling_pdf_paths "/t/b.xml.zip"
      (ZipArchive.mk [("x.y.xml", "c")]) (FSState.mk [])
      (xml_request_of "/t/b.xml.zip" "/t/b/x.y.xml") (by decide)).1⟩

/-- C10: in remote-discovery mode (`package_path` absent), a request is
yielded for a remote file exactly when the file appears in the listing
of a non-hidden folder and ".zip" occurs anywhere in its path as a
substring: the test is containment, not a filename-suffix check, so a
name such as `x.zip.bak` also counts as a bundle. -/
theorem start_requests_zip_substring_filter (ftp_host : String)
    (folder_listing : List String) (new_files_of : String → List String)
    (new_download_name target_folder ftp_folder : String) (r : CrawlRequest) :
    (r ∈ start_requests none ftp_host folder_listing new_files_of
          new_download_name target_folder ftp_folder
      ↔ ∃ folder remote_file,
          folder ∈ folder_listing ∧ pyStartsWith folder "." = false
          ∧ remote_file ∈ new_files_of (os_path_join ftp_folder folder)
          ∧ pyIn ".zip" remote_file = true
          ∧ r = ftp_zip_request ftp_host target_folder new_download_name remote_file)
    ∧ pyIn ".zip" "x.zip.bak" = true := by
  constructor
  · simp only [start_requests, ftp_list_folders, List.mem_flatMap,
      List.mem_filterMap, List.mem_filter]
    constructor
    · rintro ⟨folder, ⟨hmem, hdot⟩, file, hfile, hsome⟩
      by_cases hz : pyIn ".zip" file
      · rw [if_pos hz] at hsome
        exact ⟨folder, file, hmem, by simpa using hdot, hfile, hz,
          (Option.some_inj.mp hsome).symm⟩
      · rw [if_neg hz] at hsome
        exact absurd hsome (Option.some_ne_none _).symm
    · rintro ⟨folder, file, hmem, hdot, hfile, hz, rfl⟩
      exact ⟨folder, ⟨hmem, by simp [hdot]⟩, file, hfile, by rw [if_pos hz]⟩
  · decide
